import Mathlib

/-!
Verification of the tensor-membrane subsystem (`tensor-membrane.c`).

The C code is shallowly embedded as executable Lean definitions:

* machine integers become `Nat` with explicit reductions `% 2^32` / `% 2^64`
  at exactly the operations where the C types (`uint32_t`, `size_t`,
  `uint64_t`) can wrap;
* `float` values are only ever stored, copied and returned verbatim by the
  verified operations (no floating-point arithmetic is performed on them),
  so the data buffer is modelled as a list over an exact numeric type (`Rat`);
* in-place mutation becomes explicit state passing: each operation returns
  the updated membrane (or system state) together with its C return value;
* the null-pointer guards of the C functions are unrepresentable for the
  modelled live membranes (lists and structures are never null) and the
  `malloc`/`realloc` calls are assumed to succeed, as the verified claims do.
-/

namespace TensorMembrane

/-- Model of `prime_product` (tensor-membrane.c:59-67): the running product
is a `uint32_t`, so every multiplication is reduced `% 2^32`.  An empty
factor list yields 1, exactly as the C guard does. -/
def prime_product (factors : List Nat) : Nat :=
  factors.foldl (fun acc f => acc * f % 2^32) 1

/-- Model of `factors_compatible` (tensor-membrane.c:69-74): two factor
lists are compatible iff their (wrapped) prime products agree.  The C null
checks have no counterpart for Lean lists. -/
def factors_compatible (f1 f2 : List Nat) : Bool :=
  prime_product f1 == prime_product f2

/-- Model of `can_reshape` (tensor-membrane.c:135-139). -/
def can_reshape (from_factors to_factors : List Nat) : Bool :=
  factors_compatible from_factors to_factors

/-- Helper for `compute_tensor_dimensions`: the C loop that collects the
distinct primes in first-occurrence order, stopping once 16 distinct values
have been collected (the `unique_count < 16` bound of the loop condition,
checked before each element is processed). -/
def collect_unique (factors : List Nat) (acc : List Nat) : List Nat :=
  match factors with
  | [] => acc
  | p :: rest =>
    if acc.length < 16 then
      if p ∈ acc then collect_unique rest acc
      else collect_unique rest (acc ++ [p])
    else acc

/-- Model of `compute_tensor_dimensions` (tensor-membrane.c:76-97): the
number of distinct prime values (capped at 16). -/
def compute_tensor_dimensions (factors : List Nat) : Nat :=
  if factors = [] then 0 else (collect_unique factors []).length

/-- One iteration of the grouping loop body of `compute_tensor_size`:
if the prime already has a group its power is bumped, otherwise a fresh
group `(p, 1)` is appended at the end, exactly as the C arrays
`unique_primes`/`prime_powers` evolve. -/
def add_factor (acc : List (Nat × Nat)) (p : Nat) : List (Nat × Nat) :=
  match acc with
  | [] => [(p, 1)]
  | (q, k) :: rest => if q = p then (q, k + 1) :: rest else (q, k) :: add_factor rest p

/-- The grouping loop of `compute_tensor_size` (tensor-membrane.c:107-124),
including the `unique_count < 16` loop bound checked before each element. -/
def group_factors (factors : List Nat) (acc : List (Nat × Nat)) : List (Nat × Nat) :=
  match factors with
  | [] => acc
  | p :: rest => if acc.length < 16 then group_factors rest (add_factor acc p) else acc

/-- Model of `compute_tensor_size` (tensor-membrane.c:99-133): group the
factors by distinct prime value and multiply the multiplicities.  The C
accumulator `total_size` is a `size_t`, hence the `% 2^64` on each
multiplication. -/
def compute_tensor_size (factors : List Nat) : Nat :=
  if factors = [] then 0
  else ((group_factors factors []).map Prod.snd).foldl (fun s k => s * k % 2^64) 1

/-- The flat-offset computation shared by `membrane_get_element` and
`membrane_set_element` (tensor-membrane.c:424-432 and 445-452): iterate the
axis positions `dims-1, …, 0` accumulating `flat += indices[i] * stride;
stride *= prime_factors[i]`, where `dims` is the number of distinct primes
and the stride grows by the raw factor value at position `i` of the factor
list.  `flat_index` and `stride` are `size_t`, hence `% 2^64`. -/
def flat_index (pf : List Nat) (indices : List Nat) : Nat :=
  (((List.range (compute_tensor_dimensions pf)).reverse).foldl
    (fun (fs : Nat × Nat) i =>
      ((fs.1 + indices.getD i 0 * fs.2) % 2^64, fs.2 * pf.getD i 0 % 2^64))
    (0, 1)).1

/-- Model of the mutable state of `TensorMembraneImpl`
(tensor-membrane.c:142-166).  The pointer fields `parent`/`children` are
modelled by membrane ids; `data_size` is `4 * data.length` and is kept
implicitly as the buffer length; the never-read fields `cognitive_context`
(opaque pointer, always NULL) and `utilization` (a float metric that no
operation reads or writes) are omitted. -/
structure Membrane where
  id : Nat
  prime_factors : List Nat
  data : List Rat
  version : Nat
  parentId : Option Nat
  childIds : List Nat
  max_children : Nat
  access_permissions : Nat
  energy_level : Nat
  objects : List String
  max_objects : Nat
  operation_count : Nat
  access_count : Nat
deriving DecidableEq

/-- Model of `membrane_get_element` (tensor-membrane.c:420-439): an
out-of-bounds flat offset returns the sentinel `0.0` and leaves the
membrane untouched; an in-bounds offset returns the stored value and bumps
the `uint64_t` field `access_count`. -/
def membrane_get_element (m : Membrane) (indices : List Nat) : Rat × Membrane :=
  let fi := flat_index m.prime_factors indices
  if fi ≥ m.data.length then (0, m)
  else (m.data.getD fi 0, { m with access_count := (m.access_count + 1) % 2^64 })

/-- Model of `membrane_set_element` (tensor-membrane.c:441-462): an
out-of-bounds flat offset fails with -1 and changes nothing; otherwise the
value is stored and `operation_count` and `version` (both `uint64_t`) are
bumped. -/
def membrane_set_element (m : Membrane) (indices : List Nat) (value : Rat) :
    Membrane × Int :=
  let fi := flat_index m.prime_factors indices
  if fi ≥ m.data.length then (m, -1)
  else ({ m with
            data := m.data.set fi value,
            operation_count := (m.operation_count + 1) % 2^64,
            version := (m.version + 1) % 2^64 }, 0)

/-- Model of `membrane_fill` (tensor-membrane.c:464-475): every element is
overwritten and `operation_count`/`version` are bumped once. -/
def membrane_fill (m : Membrane) (value : Rat) : Membrane × Int :=
  ({ m with
       data := m.data.map (fun _ => value),
       operation_count := (m.operation_count + 1) % 2^64,
       version := (m.version + 1) % 2^64 }, 0)

/-- Model of a successful `realloc` to `n` elements
(tensor-membrane.c:329): the common prefix of the old buffer is preserved;
the fresh tail is unspecified in C and is modelled as zeros. -/
def realloc_data (old : List Rat) (n : Nat) : List Rat :=
  old.take n ++ List.replicate (n - old.length) 0

/-- Model of `membrane_resize` (tensor-membrane.c:315-347): guard on the
new factor list, fail unless `can_reshape` accepts the pair of shapes,
reallocate the buffer when the element count changes (`realloc` assumed to
succeed), replace the factor list and bump `version`. -/
def membrane_resize (m : Membrane) (new_factors : List Nat) : Membrane × Int :=
  if new_factors = [] ∨ new_factors.length > 16 then (m, -1)
  else if can_reshape m.prime_factors new_factors = false then (m, -1)
  else
    let new_len := compute_tensor_size new_factors
    let data2 := if new_len = m.data.length then m.data else realloc_data m.data new_len
    ({ m with
         prime_factors := new_factors,
         data := data2,
         version := (m.version + 1) % 2^64 }, 0)

/-- Model of `membrane_add_object` (tensor-membrane.c:351-371).  Note the
order of the C checks: the capacity test `object_count >= max_objects` is
part of the entry guard and is evaluated *before* the duplicate scan. -/
def membrane_add_object (m : Membrane) (symbol : String) : Membrane × Int :=
  if m.objects.length ≥ m.max_objects then (m, -1)
  else if symbol ∈ m.objects then (m, 0)
  else ({ m with objects := m.objects ++ [symbol] }, 0)

/-- Model of `membrane_remove_object` (tensor-membrane.c:373-390): the
first occurrence of the symbol is removed (the C loop frees the first
match and shifts the tail); an absent symbol fails with -1. -/
def membrane_remove_object (m : Membrane) (symbol : String) : Membrane × Int :=
  if symbol ∈ m.objects then ({ m with objects := m.objects.erase symbol }, 0)
  else (m, -1)

/-- Model of `membrane_find_object` (tensor-membrane.c:392-402): returns
the stored string (the C function returns the stored `char *`) or `none`. -/
def membrane_find_object (m : Membrane) (symbol : String) : Option String :=
  m.objects.find? (fun o => o = symbol)

/-- The allocated membranes, keyed by membrane id.  A `Nat` id plays the
role of a C pointer; in every modelled execution the ids of live membranes
are distinct, so association-list lookup is pointer dereference. -/
abbrev Heap := List (Nat × Membrane)

/-- Pointer dereference: the membrane stored under an id, if live. -/
def heap_lookup (h : Heap) (mid : Nat) : Option Membrane :=
  (h.find? (fun e => e.1 = mid)).map Prod.snd

/-- In-place mutation through a pointer: replace the membrane stored under
an id (entries with other ids are untouched, positions are preserved). -/
def heap_update (h : Heap) (mid : Nat) (m : Membrane) : Heap :=
  h.map (fun e => if e.1 = mid then (e.1, m) else e)

/-- Deallocation: drop the entry stored under an id. -/
def heap_free (h : Heap) (mid : Nat) : Heap :=
  h.filter (fun e => e.1 ≠ mid)

/-- Model of `membrane_transfer_object` (tensor-membrane.c:404-416).  The
C function receives two pointers which may alias, so it is modelled on the
heap: after `add_object` has updated the destination, the source membrane
is re-read from the heap before `remove_object` runs — when `fromId = toId`
this re-read sees the destination update, exactly as the aliased C pointers
do. -/
def membrane_transfer_object (h : Heap) (fromId toId : Nat) (symbol : String) :
    Heap × Int :=
  match heap_lookup h fromId, heap_lookup h toId with
  | some fm, some tm =>
    if (membrane_find_object fm symbol).isNone then (h, -1)
    else
      let tr := membrane_add_object tm symbol
      if tr.2 ≠ 0 then (h, -1)
      else
        let h2 := heap_update h toId tr.1
        match heap_lookup h2 fromId with
        | some fm2 =>
          let rr := membrane_remove_object fm2 symbol
          (heap_update h2 fromId rr.1, rr.2)
        | none => (h2, -1)
  | _, _ => (h, -1)

/-- Model of the global registry state (tensor-membrane.c:168-171):
the bounded array `membrane_registry` (as the list of registered ids in
array order), `membrane_count` (its length) and the `uint32_t` counter
`next_membrane_id`. -/
structure Sys where
  heap : Heap
  registry : List Nat
  nextId : Nat
deriving DecidableEq

/-- The initial state of the translation unit: empty registry, id counter 1. -/
def init_sys : Sys := { heap := [], registry := [], nextId := 1 }

/-- The buffer initialisation loop of `membrane_create`
(tensor-membrane.c:201-205): element `i` receives the next value of the
pseudo-random stream, modelled by an arbitrary function `rnd`. -/
def init_data (rnd : Nat → Rat) (n : Nat) : List Rat :=
  (List.range n).map rnd

/-- Model of `membrane_create` (tensor-membrane.c:175-236): guard on the
factor list and the registry bound, then allocate a membrane with a fresh
id (`next_membrane_id++` on a `uint32_t`, hence `% 2^32`), a buffer of
`compute_tensor_size` elements of pseudo-random data, full permissions,
energy 100, no objects, and append it to the registry.  `malloc` is
assumed to succeed. -/
def membrane_create (rnd : Nat → Rat) (s : Sys) (pf : List Nat) :
    Sys × Option Nat :=
  if pf = [] ∨ pf.length > 16 ∨ s.registry.length ≥ 64 then (s, none)
  else
    let mid := s.nextId
    let m : Membrane :=
      { id := mid
        prime_factors := pf
        data := init_data rnd (compute_tensor_size pf)
        version := 1
        parentId := none
        childIds := []
        max_children := 8
        access_permissions := 4294967295
        energy_level := 100
        objects := []
        max_objects := 16
        operation_count := 0
        access_count := 0 }
    ({ heap := s.heap ++ [(mid, m)],
       registry := s.registry ++ [mid],
       nextId := (s.nextId + 1) % 2^32 }, some mid)

/-- Model of `membrane_create_child` (tensor-membrane.c:238-261): guard on
the parent and its child capacity, create the child normally (which
registers it), then set the child's parent back-reference and append it to
the parent's child list.  The child-array `malloc` is assumed to succeed. -/
def membrane_create_child (rnd : Nat → Rat) (s : Sys) (parentId : Nat)
    (pf : List Nat) : Sys × Option Nat :=
  match heap_lookup s.heap parentId with
  | none => (s, none)
  | some parent =>
    if parent.childIds.length ≥ parent.max_children then (s, none)
    else
      match membrane_create rnd s pf with
      | (s1, none) => (s1, none)
      | (s1, some cid) =>
        match heap_lookup s1.heap cid with
        | none => (s1, none)
        | some child =>
          let s2 : Sys :=
            { s1 with heap := heap_update s1.heap cid ({ child with parentId := some parentId }) }
          match heap_lookup s2.heap parentId with
          | none => (s2, none)
          | some p2 =>
            ({ s2 with heap :=
                 heap_update s2.heap parentId ({ p2 with childIds := p2.childIds ++ [cid] }) },
             some cid)

mutual

/-- Model of `membrane_destroy` (tensor-membrane.c:263-313), fuelled for
termination (the claims instantiate the fuel large enough for the C
recursion).  The C order of events is kept exactly: (1) the membrane is
removed from the registry; (2) the child array is walked by increasing
index, re-reading the (mutating) array and its length on every iteration,
recursively destroying the child found at the current index; (3) the
membrane is unlinked from its parent's child list; (4) the membrane is
freed. -/
def membrane_destroy_fuel : Nat → Sys → Nat → Sys
  | 0, s, _ => s
  | fuel + 1, s, mid =>
    match heap_lookup s.heap mid with
    | none => s
    | some _ =>
      let s1 : Sys := { s with registry := s.registry.erase mid }
      let s2 := destroy_children_loop fuel s1 mid 0
      let s3 : Sys :=
        match heap_lookup s2.heap mid with
        | none => s2
        | some m2 =>
          match m2.parentId with
          | none => s2
          | some pid =>
            match heap_lookup s2.heap pid with
            | none => s2
            | some pm =>
              { s2 with heap :=
                  heap_update s2.heap pid ({ pm with childIds := pm.childIds.erase mid }) }
      { s3 with heap := heap_free s3.heap mid }

/-- The child-destruction loop of `membrane_destroy`
(tensor-membrane.c:279-284): `for (i = 0; i < membrane->child_count; i++)
membrane_destroy(membrane->children[i])`, where both `child_count` and
`children[i]` are re-read after each recursive call (each destroyed child
unlinks itself from this very array). -/
def destroy_children_loop : Nat → Sys → Nat → Nat → Sys
  | 0, s, _, _ => s
  | fuel + 1, s, mid, i =>
    match heap_lookup s.heap mid with
    | none => s
    | some m =>
      if i < m.childIds.length then
        destroy_children_loop fuel (membrane_destroy_fuel fuel s (m.childIds.getD i 0)) mid (i + 1)
      else s

end

/-- A lifecycle request issued by a collaborator of the registry: the
operations `membrane_create`, `membrane_create_child`, `membrane_destroy`
reachable from the shell bindings. -/
inductive MOp where
  | create (pf : List Nat)
  | createChild (pid : Nat) (pf : List Nat)
  | destroy (mid : Nat)
deriving DecidableEq

/-- Apply one lifecycle request to the state, logging the id assigned by a
successful creation. -/
def apply_op (rnd : Nat → Rat) (st : Sys × List Nat) (op : MOp) : Sys × List Nat :=
  match op with
  | .create pf =>
    let r := membrane_create rnd st.1 pf
    (r.1, st.2 ++ r.2.toList)
  | .createChild pid pf =>
    let r := membrane_create_child rnd st.1 pid pf
    (r.1, st.2 ++ r.2.toList)
  | .destroy mid => (membrane_destroy_fuel 1000 st.1 mid, st.2)

/-- Run a sequence of lifecycle requests from the initial state, returning
the final state and the ids assigned to the created membranes, in order of
creation. -/
def run_ops (rnd : Nat → Rat) (ops : List MOp) : Sys × List Nat :=
  ops.foldl (apply_op rnd) (init_sys, [])

/-- A concrete live membrane used to instantiate theorems: the state a
freshly created membrane has (id 1, version 1, full permissions, energy
100, empty counters), with the given shape, buffer and object set. -/
def sample_membrane (pf : List Nat) (d : List Rat) (objs : List String) : Membrane :=
  { id := 1
    prime_factors := pf
    data := d
    version := 1
    parentId := none
    childIds := []
    max_children := 8
    access_permissions := 4294967295
    energy_level := 100
    objects := objs
    max_objects := 16
    operation_count := 0
    access_count := 0 }

/-- Proof-side abbreviation: the multiplicity recorded for prime `p` in a
partial grouping accumulator (0 if `p` has no group yet).  Used to state
the loop invariant of `group_factors`. -/
def tally_count (acc : List (Nat × Nat)) (p : Nat) : Nat :=
  ((acc.find? (fun e => e.1 = p)).map Prod.snd).getD 0

/-- An object set that fills a membrane to its capacity of 16 distinct
symbols, with `"x"` among them. -/
def full_objects : List String :=
  ["a", "b", "c", "d", "e", "f", "g", "h", "i", "j", "k", "l", "n", "o", "p", "x"]

/-- The create/destroy churn trace used for claim C7: `n` rounds, where
round `k` (0-based) creates a membrane — which receives id `(k+1) % 2^32` —
and immediately destroys it again, keeping the registry empty. -/
def churn_ops (n : Nat) : List MOp :=
  ((List.range n).map (fun k => [MOp.create [2], MOp.destroy ((k + 1) % 2^32)])).flatten

/-- C3: the sizing and the indexing formulas are mutually inconsistent.
For the factor list `[2,2,3]` the allocation size is 2 (product of the
multiplicities 2 and 1) and the rank is 2, yet the multi-index `[1,0]` —
whose components are strictly below the multiplicities 2 and 1 of their
axes — flattens (descending axis order, stride grown by the raw factor
value) to offset 2, which is not below the allocated element count; hence
`membrane_set_element` fails with -1 and `membrane_get_element` returns the
0.0 sentinel for this logically in-range index. -/
theorem claim_C3_sizing_indexing_mismatch :
    compute_tensor_size [2, 2, 3] = 2 ∧
    compute_tensor_dimensions [2, 2, 3] = 2 ∧
    List.count 2 [2, 2, 3] = 2 ∧ List.count 3 [2, 2, 3] = 1 ∧
    1 < List.count 2 [2, 2, 3] ∧ 0 < List.count 3 [2, 2, 3] ∧
    flat_index [2, 2, 3] [1, 0] = 2 ∧
    flat_index [2, 2, 3] [1, 0] ≥ compute_tensor_size [2, 2, 3] ∧
    membrane_set_element (sample_membrane [2, 2, 3] [7, 9] []) [1, 0] 5 =
      (sample_membrane [2, 2, 3] [7, 9] [], -1) ∧
    (membrane_get_element (sample_membrane [2, 2, 3] [7, 9] []) [1, 0]).1 = 0 := by
  decide

/-- C8: element access respects the buffer bound.  If the flat offset is
out of bounds, `membrane_get_element` returns the 0.0 sentinel with the
membrane (in particular `access_count`) unchanged, and
`membrane_set_element` at the same offset fails with -1; if the offset is
in bounds, `membrane_get_element` returns the stored value and increments
`access_count`. -/
theorem claim_C8_element_access_bounds (m : Membrane) (indices : List Nat) (v : Rat) :
    (flat_index m.prime_factors indices ≥ m.data.length →
      membrane_get_element m indices = (0, m) ∧
      membrane_set_element m indices v = (m, -1)) ∧
    (flat_index m.prime_factors indices < m.data.length →
      membrane_get_element m indices =
        (m.data.getD (flat_index m.prime_factors indices) 0,
         { m with access_count := (m.access_count + 1) % 2^64 })) := by
  constructor
  · intro h
    constructor
    · simp [membrane_get_element, h]
    · simp [membrane_set_element, h]
  · intro h
    simp [membrane_get_element, Nat.not_le.mpr h]

/-- Witness for C8 at the membrane of shape `[2,2,3]` with buffer `[7,9]`:
the multi-index `[1,0]` is out of bounds, so the read returns 0.0 and
leaves the membrane unchanged. -/
theorem claim_C8_witness :
    membrane_get_element (sample_membrane [2, 2, 3] [7, 9] []) [1, 0] =
      (0, sample_membrane [2, 2, 3] [7, 9] []) :=
  ((claim_C8_element_access_bounds (sample_membrane [2, 2, 3] [7, 9] []) [1, 0] 5).1
    (by decide)).1

/-- C10: element access has no hidden writes.  Every `membrane_get_element`
call leaves the factor list, buffer, version, operation count, objects,
children and energy untouched; an out-of-bounds read leaves the membrane
entirely unchanged (including `access_count`); and a failed
`membrane_set_element` call leaves the membrane entirely unchanged. -/
theorem claim_C10_access_frame (m : Membrane) (indices : List Nat) (v : Rat) :
    ((membrane_get_element m indices).2.prime_factors = m.prime_factors ∧
     (membrane_get_element m indices).2.data = m.data ∧
     (membrane_get_element m indices).2.version = m.version ∧
     (membrane_get_element m indices).2.operation_count = m.operation_count ∧
     (membrane_get_element m indices).2.objects = m.objects ∧
     (membrane_get_element m indices).2.childIds = m.childIds ∧
     (membrane_get_element m indices).2.energy_level = m.energy_level) ∧
    (flat_index m.prime_factors indices ≥ m.data.length →
      (membrane_get_element m indices).2 = m) ∧
    ((membrane_set_element m indices v).2 = -1 →
      (membrane_set_element m indices v).1 = m) := by
  refine ⟨?_, ?_, ?_⟩
  · by_cases h : flat_index m.prime_factors indices ≥ m.data.length <;>
      simp [membrane_get_element, h]
  · intro h
    simp [membrane_get_element, h]
  · by_cases h : flat_index m.prime_factors indices ≥ m.data.length
    · simp [membrane_set_element, h]
    · simp [membrane_set_element, h]

/-- Witness for C10 at the membrane of shape `[2,2,3]` with buffer `[7,9]`
and the out-of-bounds multi-index `[1,0]`: the failed write changes
nothing. -/
theorem claim_C10_witness :
    (membrane_set_element (sample_membrane [2, 2, 3] [7, 9] []) [1, 0] 5).1 =
      sample_membrane [2, 2, 3] [7, 9] [] :=
  (claim_C10_access_frame (sample_membrane [2, 2, 3] [7, 9] []) [1, 0] 5).2.2
    (by decide)

/-- C2: for a live membrane and a candidate factor list of primes (entries
≥ 2, length 1..16), with reallocation assumed to succeed,
`membrane_resize` succeeds exactly when the (`uint32_t`) prime products of
the old and the new factor lists agree; on success the factor list is
replaced and `version` is incremented, and on a product mismatch it fails
with -1 leaving the membrane in its prior state. -/
theorem claim_C2_reshape_iff_compatible (m : Membrane) (new_factors : List Nat)
    (h0 : new_factors ≠ []) (h1 : new_factors.length ≤ 16)
    (_h2 : ∀ x ∈ new_factors, 2 ≤ x) :
    ((membrane_resize m new_factors).2 = 0 ↔
      prime_product m.prime_factors = prime_product new_factors) ∧
    (prime_product m.prime_factors = prime_product new_factors →
      (membrane_resize m new_factors).1.prime_factors = new_factors ∧
      (membrane_resize m new_factors).1.version = (m.version + 1) % 2^64) ∧
    (prime_product m.prime_factors ≠ prime_product new_factors →
      membrane_resize m new_factors = (m, -1)) := by
  have hg : ¬ (new_factors = [] ∨ new_factors.length > 16) := by
    push_neg
    exact ⟨h0, by omega⟩
  by_cases hp : prime_product m.prime_factors = prime_product new_factors
  · have hc : can_reshape m.prime_factors new_factors = true := by
      simp [can_reshape, factors_compatible, hp]
    simp [membrane_resize, hg, hc, hp]
  · have hc : can_reshape m.prime_factors new_factors = false := by
      simp [can_reshape, factors_compatible, hp]
    simp [membrane_resize, hg, hc, hp]

/-- Witness for C2: reshaping the membrane of shape `[2,2,3]` (product 12)
to `[3,2,2]` (product 12) succeeds and replaces the factor list. -/
theorem claim_C2_witness :
    (membrane_resize (sample_membrane [2, 2, 3] [7, 9] []) [3, 2, 2]).1.prime_factors =
      [3, 2, 2] :=
  (((claim_C2_reshape_iff_compatible (sample_membrane [2, 2, 3] [7, 9] []) [3, 2, 2]
    (by decide) (by decide) (by decide)).2.1) (by decide)).1

/-- Counterexample to C5 as stated: a membrane already holding 16 distinct
symbols, among them `"x"`.  The claim says `add_object` with `"x"` still
succeeds (idempotence even at capacity); the code's capacity test precedes
its membership scan, so the call fails with -1 instead. -/
theorem claim_C5_counterexample :
    (sample_membrane [2] [0] full_objects).objects.length = 16 ∧
    "x" ∈ (sample_membrane [2] [0] full_objects).objects ∧
    membrane_add_object (sample_membrane [2] [0] full_objects) "x" =
      (sample_membrane [2] [0] full_objects, -1) := by
  decide

/-- C5 (amended): `membrane_add_object` is idempotent only below capacity.
When the object count is at least `max_objects` (16) it fails with -1
regardless of whether the symbol is present, because the capacity check
precedes the membership check; below capacity a present symbol is accepted
without change and an absent one is appended. -/
theorem claim_C5_add_object_amended (m : Membrane) (symbol : String) :
    (m.objects.length ≥ m.max_objects → membrane_add_object m symbol = (m, -1)) ∧
    (m.objects.length < m.max_objects →
      (symbol ∈ m.objects → membrane_add_object m symbol = (m, 0)) ∧
      (symbol ∉ m.objects →
        membrane_add_object m symbol = ({ m with objects := m.objects ++ [symbol] }, 0))) := by
  constructor
  · intro h
    simp [membrane_add_object, h]
  · intro h
    constructor
    · intro hs
      simp [membrane_add_object, Nat.not_le.mpr h, hs]
    · intro hs
      simp [membrane_add_object, Nat.not_le.mpr h, hs]

/-- Witness for the amended C5: below capacity, re-adding the present
symbol `"x"` succeeds and leaves the membrane unchanged. -/
theorem claim_C5_witness :
    membrane_add_object (sample_membrane [2] [0] ["x"]) "x" =
      (sample_membrane [2] [0] ["x"], 0) :=
  ((claim_C5_add_object_amended (sample_membrane [2] [0] ["x"]) "x").2
    (by decide)).1 (by decide)

theorem getD_set_self (l : List Rat) (i : Nat) (v : Rat) (h : i < l.length) :
    (l.set i v).getD i 0 = v := by
  rw [List.getD_eq_getElem?_getD, List.getElem?_set_eq_of_lt v h]
  rfl

/-- C9: a successful write is read back exactly.  For every membrane and
every multi-index whose flat offset is in bounds, `membrane_set_element`
succeeds (incrementing `operation_count` and bumping `version`) and a
subsequent `membrane_get_element` at the same multi-index returns exactly
the written value.  End to end: creating a membrane with factors `[2,3]`
yields a buffer of 1 element, and after `membrane_fill 5.0` a
`membrane_get_element [0,0]` returns 5.0. -/
theorem claim_C9_set_get_roundtrip :
    (∀ (m : Membrane) (indices : List Nat) (v : Rat),
      flat_index m.prime_factors indices < m.data.length →
        (membrane_set_element m indices v).2 = 0 ∧
        (membrane_set_element m indices v).1.operation_count =
          (m.operation_count + 1) % 2^64 ∧
        (membrane_set_element m indices v).1.version = (m.version + 1) % 2^64 ∧
        (membrane_get_element (membrane_set_element m indices v).1 indices).1 = v) ∧
    (∀ rnd : Nat → Rat,
      compute_tensor_size [2, 3] = 1 ∧
      (membrane_create rnd init_sys [2, 3]).2 = some 1 ∧
      ∃ m, heap_lookup (membrane_create rnd init_sys [2, 3]).1.heap 1 = some m ∧
        m.data.length = 1 ∧
        (membrane_get_element (membrane_fill m 5).1 [0, 0]).1 = 5) := by
  constructor
  · intro m indices v h
    have hn : ¬ (flat_index m.prime_factors indices ≥ m.data.length) := Nat.not_le.mpr h
    refine ⟨?_, ?_, ?_, ?_⟩
    · simp [membrane_set_element, hn]
    · simp [membrane_set_element, hn]
    · simp [membrane_set_element, hn]
    · simp only [membrane_set_element, ge_iff_le, hn, if_neg, if_false]
      simp only [membrane_get_element, List.length_set, ge_iff_le, hn, if_neg, if_false]
      exact getD_set_self m.data (flat_index m.prime_factors indices) v h
  · intro rnd
    refine ⟨by decide, ?_, ?_⟩
    · simp [membrane_create, init_sys]
    · refine
        ⟨{ id := 1, prime_factors := [2, 3],
           data := init_data rnd (compute_tensor_size [2, 3]), version := 1,
           parentId := none, childIds := [], max_children := 8,
           access_permissions := 4294967295, energy_level := 100, objects := [],
           max_objects := 16, operation_count := 0, access_count := 0 }, ?_, ?_, ?_⟩
      · simp [membrane_create, init_sys, heap_lookup]
      · have h1 : compute_tensor_size [2, 3] = 1 := by decide
        simp [init_data, h1]
      · have h1 : compute_tensor_size [2, 3] = 1 := by decide
        have h2 : flat_index [2, 3] [0, 0] = 0 := by decide
        simp [membrane_fill, membrane_get_element, init_data, h1, h2,
          List.range_succ, List.getD]

/-- Witness for C9 at the membrane of shape `[2,3]` with buffer `[7]`:
writing 5 at `[0,0]` succeeds and reads back as 5. -/
theorem claim_C9_witness :
    (membrane_get_element
      (membrane_set_element (sample_membrane [2, 3] [7] []) [0, 0] 5).1 [0, 0]).1 = 5 :=
  (claim_C9_set_get_roundtrip.1 (sample_membrane [2, 3] [7] []) [0, 0] 5
    (by decide)).2.2.2

theorem heap_lookup_cons (e : Nat × Membrane) (t : Heap) (k : Nat) :
    heap_lookup (e :: t) k = if e.1 = k then some e.2 else heap_lookup t k := by
  by_cases he : e.1 = k <;> simp [heap_lookup, List.find?_cons, he]

theorem heap_lookup_update (h : Heap) (mid k : Nat) (m : Membrane) :
    heap_lookup (heap_update h mid m) k =
      if k = mid then (heap_lookup h k).map (fun _ => m) else heap_lookup h k := by
  induction h with
  | nil => by_cases hk : k = mid <;> simp [heap_lookup, heap_update, hk]
  | cons e t ih =>
    by_cases hem : e.1 = mid
    · by_cases hk : k = mid
      · have hek : e.1 = k := hem.trans hk.symm
        simp [heap_update, heap_lookup_cons, hem, hk, hek]
      · have hmk : mid ≠ k := fun hh => hk hh.symm
        have hek : e.1 ≠ k := by
          rw [hem]
          exact hmk
        simpa [heap_update, heap_lookup_cons, hem, hek, hk, hmk] using ih
    · by_cases hek : e.1 = k
      · by_cases hk : k = mid
        · exact absurd (hek.trans hk) hem
        · simp [heap_update, heap_lookup_cons, hem, hek, hk]
      · by_cases hk : k = mid <;>
          simpa [heap_update, heap_lookup_cons, hem, hek, hk] using ih

theorem add_object_code_zero_mem (m : Membrane) (symbol : String)
    (h : (membrane_add_object m symbol).2 = 0) :
    symbol ∈ (membrane_add_object m symbol).1.objects := by
  by_cases hcap : m.objects.length ≥ m.max_objects
  · simp [membrane_add_object, hcap] at h
  · by_cases hmem : symbol ∈ m.objects <;>
      simp [membrane_add_object, hcap, hmem]

/-- Counterexample to C4 as stated: the claim covers `from = to`.  A
membrane holding exactly `{"x"}` transferred onto itself: the transfer
returns success (the add sees the symbol already present and reports 0,
then the removal deletes it), and afterwards the symbol is present in
neither of the two membranes — it has been lost. -/
theorem claim_C4_counterexample :
    "x" ∈ (sample_membrane [2] [0] ["x"]).objects ∧
    (membrane_transfer_object [(1, sample_membrane [2] [0] ["x"])] 1 1 "x").2 = 0 ∧
    heap_lookup (membrane_transfer_object [(1, sample_membrane [2] [0] ["x"])] 1 1 "x").1 1 =
      some (sample_membrane [2] [0] []) := by
  decide

/-- C4 (amended): for two *distinct* membranes, `membrane_transfer_object`
of a symbol present in the source is atomic: if the transfer fails the
whole heap (hence both membranes) is unchanged and the symbol is still in
the source; if it succeeds the symbol has been added to the destination
and removed from the source.  For `from = to` the atomicity fails (see the
counterexample): the call reports success but deletes the symbol. -/
theorem claim_C4_transfer_atomic_distinct (h : Heap) (fromId toId : Nat)
    (symbol : String) (fm : Membrane) (hne : fromId ≠ toId)
    (hf : heap_lookup h fromId = some fm) (hs : symbol ∈ fm.objects) :
    ((membrane_transfer_object h fromId toId symbol).2 ≠ 0 →
      (membrane_transfer_object h fromId toId symbol).1 = h) ∧
    ((membrane_transfer_object h fromId toId symbol).2 = 0 →
      heap_lookup (membrane_transfer_object h fromId toId symbol).1 fromId =
        some ({ fm with objects := fm.objects.erase symbol }) ∧
      ∃ tm2, heap_lookup (membrane_transfer_object h fromId toId symbol).1 toId =
        some tm2 ∧ symbol ∈ tm2.objects) := by
  have hfind : (membrane_find_object fm symbol).isNone = false := by
    rw [Option.isNone_eq_false_iff, Option.isSome_iff_ne_none]
    intro hnone
    rw [membrane_find_object, List.find?_eq_none] at hnone
    exact absurd (by simp : decide (symbol = symbol) = true) (hnone symbol hs)
  cases hto : heap_lookup h toId with
  | none =>
    constructor
    · intro _
      simp [membrane_transfer_object, hf, hto]
    · intro habs
      rw [membrane_transfer_object] at habs
      rw [hf, hto] at habs
      simp at habs
  | some tm =>
    by_cases hcode : (membrane_add_object tm symbol).2 = 0
    · have hmem2 : symbol ∈ (membrane_add_object tm symbol).1.objects :=
        add_object_code_zero_mem tm symbol hcode
      have hred : membrane_transfer_object h fromId toId symbol =
          (heap_update (heap_update h toId (membrane_add_object tm symbol).1) fromId
            ({ fm with objects := fm.objects.erase symbol }), 0) := by
        rw [membrane_transfer_object, hf, hto]
        simp only [hfind, Bool.false_eq_true, if_false, hcode, ne_eq,
          not_true_eq_false, if_neg]
        rw [heap_lookup_update]
        simp only [hne, if_neg, hf]
        simp [membrane_remove_object, hs, hne]
      rw [hred]
      constructor
      · intro habs
        exact absurd rfl habs
      · intro _
        constructor
        · rw [heap_lookup_update]
          simp only [if_pos rfl]
          rw [heap_lookup_update]
          simp [hne, hf]
        · refine ⟨(membrane_add_object tm symbol).1, ?_, hmem2⟩
          have htne : toId ≠ fromId := fun hh => hne hh.symm
          rw [heap_lookup_update]
          simp only [htne, if_neg, hto]
          rw [heap_lookup_update]
          simp [hto]
    · have hred : membrane_transfer_object h fromId toId symbol = (h, -1) := by
        rw [membrane_transfer_object, hf, hto]
        simp [hfind, hcode]
      rw [hred]
      constructor
      · intro _
        rfl
      · intro habs
        simp at habs

/-- Witness for the amended C4: transferring `"x"` between two distinct
membranes (source holds `{"x"}`, destination empty) succeeds and the
symbol ends up in the destination, removed from the source. -/
theorem claim_C4_witness :
    heap_lookup (membrane_transfer_object
      [(1, sample_membrane [2] [0] ["x"]), (2, sample_membrane [2] [0] [])] 1 2 "x").1 1 =
      some (sample_membrane [2] [0] []) := by
  have hx := (claim_C4_transfer_atomic_distinct
    [(1, sample_membrane [2] [0] ["x"]), (2, sample_membrane [2] [0] [])] 1 2 "x"
    (sample_membrane [2] [0] ["x"]) (by decide) (by decide) (by decide)).2 (by decide)
  have he : ({ sample_membrane [2] [0] ["x"] with
      objects := (sample_membrane [2] [0] ["x"]).objects.erase "x" }) =
      sample_membrane [2] [0] [] := by decide
  rw [he] at hx
  exact hx.1

set_option maxHeartbeats 1600000 in
/-- C6 evaluated at the failing input: a membrane P (id 1) with two
children A (id 2) and B (id 3) and one grandchild G (id 4) under A; the
registry holds the four ids.  `membrane_destroy(P)` removes only P, A and
G from the registry: when A's recursive destruction unlinks A from P's
child array, the array shifts under the running loop index, so the second
child B is skipped, survives with a dangling parent pointer, and the
registry count decreases by 3 instead of the 4 the claim states. -/
theorem claim_C6_destroy_skips_second_child :
    (run_ops (fun _ => 0)
      [MOp.create [2], MOp.createChild 1 [2], MOp.createChild 1 [2],
       MOp.createChild 2 [2]]).1.registry = [1, 2, 3, 4] ∧
    (membrane_destroy_fuel 16
      (run_ops (fun _ => 0)
        [MOp.create [2], MOp.createChild 1 [2], MOp.createChild 1 [2],
         MOp.createChild 2 [2]]).1 1).registry = [3] ∧
    ((membrane_destroy_fuel 16
      (run_ops (fun _ => 0)
        [MOp.create [2], MOp.createChild 1 [2], MOp.createChild 1 [2],
         MOp.createChild 2 [2]]).1 1).heap.map Prod.fst) = [3] := by
  decide

theorem add_factor_fst (acc : List (Nat × Nat)) (p : Nat) :
    (add_factor acc p).map Prod.fst =
      if p ∈ acc.map Prod.fst then acc.map Prod.fst else acc.map Prod.fst ++ [p] := by
  induction acc with
  | nil => simp [add_factor]
  | cons e t ih =>
    obtain ⟨q, k⟩ := e
    by_cases hq : q = p
    · simp [add_factor, hq]
    · have hq2 : p ≠ q := fun hh => hq hh.symm
      by_cases hp : p ∈ t.map Prod.fst <;>
        simp [add_factor, hq, hq2, ih, hp]

theorem tally_count_nil (p : Nat) : tally_count [] p = 0 := rfl

theorem tally_count_add_factor (acc : List (Nat × Nat)) (p q : Nat) :
    tally_count (add_factor acc p) q =
      tally_count acc q + if q = p then 1 else 0 := by
  induction acc with
  | nil =>
    by_cases hqp : q = p
    · subst hqp
      simp [add_factor, tally_count, List.find?_cons]
    · have hpq : ¬ (p = q) := fun hh => hqp hh.symm
      simp [add_factor, tally_count, List.find?_cons, hqp, hpq]
  | cons e t ih =>
    obtain ⟨a, k⟩ := e
    by_cases hap : a = p
    · subst hap
      by_cases haq : a = q
      · subst haq
        simp [add_factor, tally_count, List.find?_cons]
      · have hqa : ¬ (q = a) := fun hh => haq hh.symm
        simp [add_factor, tally_count, List.find?_cons, haq, hqa]
    · by_cases haq : a = q
      · subst haq
        simp [add_factor, tally_count, List.find?_cons, hap]
      · have hqa : ¬ (q = a) := fun hh => haq hh.symm
        simpa [add_factor, tally_count, List.find?_cons, hap, haq, hqa] using ih

theorem prod_snd_eq_prod_tally (acc : List (Nat × Nat))
    (hnd : (acc.map Prod.fst).Nodup) :
    (acc.map Prod.snd).prod =
      ∏ p in (acc.map Prod.fst).toFinset, tally_count acc p := by
  induction acc with
  | nil => simp
  | cons e t ih =>
    obtain ⟨a, k⟩ := e
    simp only [List.map_cons, List.nodup_cons] at hnd
    obtain ⟨hna, hnt⟩ := hnd
    have hmem : a ∉ (t.map Prod.fst).toFinset := by
      simpa using hna
    simp only [List.map_cons, List.prod_cons, List.toFinset_cons]
    rw [Finset.prod_insert hmem]
    have hhead : tally_count ((a, k) :: t) a = k := by
      simp [tally_count, List.find?_cons]
    have hrest : ∀ p ∈ (t.map Prod.fst).toFinset,
        tally_count ((a, k) :: t) p = tally_count t p := by
      intro p hp
      have hap : ¬ (a = p) := by
        intro hh
        exact hna (by simpa [hh] using hp)
      simp [tally_count, List.find?_cons, hap]
    rw [hhead, ih hnt, Finset.prod_congr rfl hrest]

theorem group_factors_prod : ∀ (rest : List Nat) (acc : List (Nat × Nat)),
    (acc.map Prod.fst).Nodup → acc.length + rest.length ≤ 16 →
    ((group_factors rest acc).map Prod.snd).prod =
      ∏ p in ((acc.map Prod.fst).toFinset ∪ rest.toFinset),
        (tally_count acc p + rest.count p) := by
  intro rest
  induction rest with
  | nil =>
    intro acc hnd _
    simp [group_factors, prod_snd_eq_prod_tally acc hnd]
  | cons r rest ih =>
    intro acc hnd hlen
    have hacc : acc.length < 16 := by
      simp only [List.length_cons] at hlen
      omega
    have hstep : group_factors (r :: rest) acc = group_factors rest (add_factor acc r) := by
      simp [group_factors, hacc]
    have hnd2 : ((add_factor acc r).map Prod.fst).Nodup := by
      rw [add_factor_fst]
      by_cases hr : r ∈ acc.map Prod.fst
      · simpa [hr] using hnd
      · simp only [hr, if_neg, if_false]
        rw [List.nodup_append]
        refine ⟨hnd, List.nodup_singleton r, fun x hx hmem => hr ?_⟩
        rw [← List.mem_singleton.mp hmem]
        exact hx
    have hlen2 : (add_factor acc r).length + rest.length ≤ 16 := by
      have hmap := congrArg List.length (add_factor_fst acc r)
      simp only [List.length_cons] at hlen
      by_cases hr : r ∈ acc.map Prod.fst
      · rw [if_pos hr] at hmap
        simp only [List.length_map] at hmap
        omega
      · rw [if_neg hr] at hmap
        simp only [List.length_map, List.length_append, List.length_singleton] at hmap
        omega
    rw [hstep, ih (add_factor acc r) hnd2 hlen2]
    have hset : ((add_factor acc r).map Prod.fst).toFinset ∪ rest.toFinset =
        (acc.map Prod.fst).toFinset ∪ (r :: rest).toFinset := by
      rw [add_factor_fst]
      by_cases hr : r ∈ acc.map Prod.fst
      · have hrf : r ∈ (acc.map Prod.fst).toFinset := by simpa using hr
        simp only [hr, if_pos, List.toFinset_cons, Finset.union_insert,
          Finset.insert_eq_self.mpr (Finset.mem_union_left _ hrf)]
      · simp only [hr, if_neg, if_false, List.toFinset_append, List.toFinset_cons]
        ext x
        simp only [Finset.mem_union, Finset.mem_insert, List.toFinset_cons,
          List.mem_toFinset, List.toFinset_nil, Finset.mem_singleton,
          Finset.union_assoc, Finset.not_mem_empty, or_false]
    rw [hset]
    refine Finset.prod_congr rfl ?_
    intro p _
    rw [tally_count_add_factor, List.count_cons]
    rcases eq_or_ne p r with hpr | hpr
    · rw [if_pos hpr, if_pos (by simp [hpr] : (r == p) = true)]
      omega
    · rw [if_neg hpr, if_neg (by simp [Ne.symm hpr] : ¬ ((r == p) = true))]
      omega

theorem foldl_mul_mod : ∀ (l : List Nat) (a : Nat),
    l.foldl (fun s k => s * k % 2^64) (a % 2^64) = a * l.prod % 2^64 := by
  intro l
  induction l with
  | nil => intro a; simp
  | cons k t ih =>
    intro a
    have hst : a % 2^64 * k % 2^64 = a * k % 2^64 := Nat.mod_mul_mod
    simp only [List.foldl_cons, hst, ih (a * k), List.prod_cons]
    rw [Nat.mul_assoc]

/-- C1: for every non-empty factor list of at most 16 entries,
`compute_tensor_size` returns the product, over the distinct values
occurring in the list, of each value's multiplicity — not the product of
the values themselves; in particular the size of `[2,2,3,3,3]` is 2×3 = 6. -/
theorem claim_C1_size_product_of_multiplicities :
    (∀ f : List Nat, f ≠ [] → f.length ≤ 16 →
      compute_tensor_size f = ∏ p in f.toFinset, f.count p) ∧
    compute_tensor_size [2, 2, 3, 3, 3] = 6 := by
  constructor
  · intro f hne hlen
    have hkey := group_factors_prod f [] (by simp) (by simpa using hlen)
    simp only [List.map_nil, List.toFinset_nil, Finset.empty_union,
      tally_count_nil, Nat.zero_add] at hkey
    have hprodle : ((group_factors f []).map Prod.snd).prod < 2^64 := by
      rw [hkey]
      have h1 : ∀ p ∈ f.toFinset, f.count p ≤ 2 ^ f.count p := fun p _ =>
        Nat.le_of_lt (Nat.lt_two_pow _)
      have h2 : (∏ p in f.toFinset, f.count p) ≤ ∏ p in f.toFinset, 2 ^ f.count p :=
        Finset.prod_le_prod' h1
      have h3 : (∏ p in f.toFinset, 2 ^ f.count p) = 2 ^ (∑ p in f.toFinset, f.count p) :=
        Finset.prod_pow_eq_pow_sum f.toFinset (fun p => f.count p) 2
      have h4 : (∑ p in f.toFinset, f.count p) = f.length := by
        simp
      have h5 : (2:Nat) ^ f.length ≤ 2 ^ 16 := Nat.pow_le_pow_right (by omega) hlen
      calc (∏ p in f.toFinset, f.count p) ≤ 2 ^ f.length := by rw [← h4, ← h3]; exact h2
        _ ≤ 2 ^ 16 := h5
        _ < 2 ^ 64 := by norm_num
    have hone : (1:Nat) = 1 % 2^64 := by norm_num
    rw [compute_tensor_size, if_neg hne, hone, foldl_mul_mod, Nat.one_mul,
      Nat.mod_eq_of_lt hprodle, hkey]
  · decide

/-- Witness for C1 at the factor list `[2,2,3,3,3]` of the claim. -/
theorem claim_C1_witness :
    compute_tensor_size [2, 2, 3, 3, 3] =
      ∏ p in ([2, 2, 3, 3, 3] : List Nat).toFinset,
        ([2, 2, 3, 3, 3] : List Nat).count p :=
  claim_C1_size_product_of_multiplicities.1 [2, 2, 3, 3, 3] (by decide) (by decide)

theorem destroy_preserves_nextId (fuel : Nat) :
    (∀ s mid, (membrane_destroy_fuel fuel s mid).nextId = s.nextId) ∧
    (∀ s mid i, (destroy_children_loop fuel s mid i).nextId = s.nextId) := by
  induction fuel with
  | zero => exact ⟨fun s mid => rfl, fun s mid i => rfl⟩
  | succ n ih =>
    constructor
    · intro s mid
      rw [membrane_destroy_fuel]
      split
      · rfl
      · dsimp only
        repeat' split
        all_goals exact ih.2 _ _ _
    · intro s mid i
      rw [destroy_children_loop]
      split
      · rfl
      · split
        · rw [ih.2, ih.1]
        · rfl

theorem heap_lookup_append_some (h1 h2 : Heap) (k : Nat) (v : Membrane)
    (hv : heap_lookup h1 k = some v) :
    heap_lookup (h1 ++ h2) k = some v := by
  induction h1 with
  | nil => simp [heap_lookup] at hv
  | cons e t ih =>
    rw [List.cons_append, heap_lookup_cons]
    rw [heap_lookup_cons] at hv
    by_cases he : e.1 = k
    · simpa [he] using hv
    · rw [if_neg he] at hv
      rw [if_neg he]
      exact ih hv

theorem heap_lookup_append_self (h : Heap) (k : Nat) (m : Membrane) :
    (heap_lookup (h ++ [(k, m)]) k).isSome = true := by
  induction h with
  | nil => simp [heap_lookup]
  | cons e t ih =>
    rw [List.cons_append, heap_lookup_cons]
    by_cases he : e.1 = k
    · simp [he]
    · simpa [he] using ih

theorem membrane_create_effect (rnd : Nat → Rat) (s : Sys) (pf : List Nat) :
    ((membrane_create rnd s pf).2 = none ∧ (membrane_create rnd s pf).1 = s) ∨
    ((membrane_create rnd s pf).2 = some s.nextId ∧
     (membrane_create rnd s pf).1.nextId = (s.nextId + 1) % 2^32 ∧
     ∃ m, (membrane_create rnd s pf).1.heap = s.heap ++ [(s.nextId, m)]) := by
  by_cases hg : pf = [] ∨ pf.length > 16 ∨ s.registry.length ≥ 64
  · left
    simp [membrane_create, hg]
  · right
    refine ⟨by simp [membrane_create, hg], by simp [membrane_create, hg],
      { id := s.nextId, prime_factors := pf,
        data := init_data rnd (compute_tensor_size pf), version := 1,
        parentId := none, childIds := [], max_children := 8,
        access_permissions := 4294967295, energy_level := 100, objects := [],
        max_objects := 16, operation_count := 0, access_count := 0 }, ?_⟩
    simp [membrane_create, hg]

theorem membrane_create_child_effect (rnd : Nat → Rat) (s : Sys) (pid : Nat)
    (pf : List Nat) :
    ((membrane_create_child rnd s pid pf).2 = none ∧
     (membrane_create_child rnd s pid pf).1.nextId = s.nextId) ∨
    ((membrane_create_child rnd s pid pf).2 = some s.nextId ∧
     (membrane_create_child rnd s pid pf).1.nextId = (s.nextId + 1) % 2^32) := by
  rw [membrane_create_child]
  cases hpl : heap_lookup s.heap pid with
  | none => exact Or.inl ⟨rfl, rfl⟩
  | some parent =>
    dsimp only
    by_cases hcap : parent.childIds.length ≥ parent.max_children
    · rw [if_pos hcap]
      exact Or.inl ⟨rfl, rfl⟩
    · rw [if_neg hcap]
      rcases membrane_create_effect rnd s pf with ⟨hn, hs⟩ | ⟨hid, hnext, mnew, hheap⟩
      · rw [(Prod.ext_iff.mpr ⟨hs, hn⟩ :
          membrane_create rnd s pf = (s, (none : Option Nat)))]
        exact Or.inl ⟨rfl, rfl⟩
      · rw [(Prod.ext_iff.mpr ⟨rfl, hid⟩ :
          membrane_create rnd s pf = ((membrane_create rnd s pf).1, some s.nextId))]
        have hcid : (heap_lookup (membrane_create rnd s pf).1.heap s.nextId).isSome = true := by
          rw [hheap]
          exact heap_lookup_append_self _ _ _
        cases hc2 : heap_lookup (membrane_create rnd s pf).1.heap s.nextId with
        | none =>
          rw [hc2] at hcid
          simp at hcid
        | some child =>
          simp only [hc2]
          have hpar0 : heap_lookup (membrane_create rnd s pf).1.heap pid = some parent := by
            rw [hheap]
            exact heap_lookup_append_some _ _ _ _ hpl
          have hpar : (heap_lookup (heap_update (membrane_create rnd s pf).1.heap s.nextId
              ({ child with parentId := some pid })) pid).isSome = true := by
            rw [heap_lookup_update]
            by_cases hps : pid = s.nextId
            · rw [if_pos hps, hpar0]
              rfl
            · rw [if_neg hps, hpar0]
              rfl
          cases hp2 : heap_lookup (heap_update (membrane_create rnd s pf).1.heap s.nextId
              ({ child with parentId := some pid })) pid with
          | none =>
            rw [hp2] at hpar
            simp at hpar
          | some p2 =>
            exact Or.inr ⟨rfl, hnext⟩

theorem apply_op_invariant (rnd : Nat → Rat) (st : Sys × List Nat) (op : MOp)
    (h1 : st.1.nextId = (1 + st.2.length) % 2^32)
    (h2 : st.2 = (List.range' 1 st.2.length).map (· % 2^32)) :
    (apply_op rnd st op).1.nextId = (1 + (apply_op rnd st op).2.length) % 2^32 ∧
    (apply_op rnd st op).2 =
      (List.range' 1 (apply_op rnd st op).2.length).map (· % 2^32) := by
  cases op with
  | create pf =>
    rcases membrane_create_effect rnd st.1 pf with ⟨hn, hs⟩ | ⟨hid, hnext, mnew, hheap⟩
    · simp only [apply_op, hn, hs, Option.toList_none, List.append_nil]
      exact ⟨h1, h2⟩
    · simp only [apply_op, hid, hnext, Option.toList_some]
      constructor
      · rw [h1, List.length_append, List.length_singleton]
        omega
      · have hconcat : List.range' 1 (st.2.length + 1) =
            List.range' 1 st.2.length ++ [1 + 1 * st.2.length] :=
          List.range'_concat 1 st.2.length
        rw [List.length_append, List.length_singleton, hconcat, List.map_append,
          ← h2, h1]
        simp
  | createChild pid pf =>
    rcases membrane_create_child_effect rnd st.1 pid pf with ⟨hn, hnext⟩ | ⟨hid, hnext⟩
    · simp only [apply_op, hn, hnext, Option.toList_none, List.append_nil]
      exact ⟨h1, h2⟩
    · simp only [apply_op, hid, hnext, Option.toList_some]
      constructor
      · rw [h1, List.length_append, List.length_singleton]
        omega
      · have hconcat : List.range' 1 (st.2.length + 1) =
            List.range' 1 st.2.length ++ [1 + 1 * st.2.length] :=
          List.range'_concat 1 st.2.length
        rw [List.length_append, List.length_singleton, hconcat, List.map_append,
          ← h2, h1]
        simp
  | destroy mid =>
    simp only [apply_op]
    exact ⟨((destroy_preserves_nextId 1000).1 st.1 mid).trans h1, h2⟩

theorem run_ops_invariant (rnd : Nat → Rat) (ops : List MOp) :
    (run_ops rnd ops).1.nextId = (1 + (run_ops rnd ops).2.length) % 2^32 ∧
    (run_ops rnd ops).2 =
      (List.range' 1 (run_ops rnd ops).2.length).map (· % 2^32) := by
  suffices h : ∀ (l : List MOp) (st : Sys × List Nat),
      st.1.nextId = (1 + st.2.length) % 2^32 →
      st.2 = (List.range' 1 st.2.length).map (· % 2^32) →
      (l.foldl (apply_op rnd) st).1.nextId =
        (1 + (l.foldl (apply_op rnd) st).2.length) % 2^32 ∧
      (l.foldl (apply_op rnd) st).2 =
        (List.range' 1 (l.foldl (apply_op rnd) st).2.length).map (· % 2^32) by
    exact h ops (init_sys, []) (by norm_num [init_sys]) rfl
  intro l
  induction l with
  | nil =>
    intro st ha hb
    exact ⟨ha, hb⟩
  | cons op rest ih =>
    intro st ha hb
    have hstep := apply_op_invariant rnd st op ha hb
    exact ih (apply_op rnd st op) hstep.1 hstep.2

/-- C7 (amended): membrane ids are strictly increasing in order of creation
— each newly created membrane's id exceeds every id assigned before, and no
id is reused, even immediately after destroying the membrane holding the
highest id — *as long as fewer than 2^32 membranes have ever been created*.
The id counter is a `uint32_t` that wraps: at the 2^32-th creation the
assigned id is 0 and monotonicity fails (see the counterexample). -/
theorem claim_C7_ids_monotone_below_wrap (rnd : Nat → Rat) (ops : List MOp)
    (hlen : (run_ops rnd ops).2.length < 2^32) :
    ((run_ops rnd ops).2).Pairwise (· < ·) := by
  obtain ⟨h1, h2⟩ := run_ops_invariant rnd ops
  rw [h2]
  have hmap : ∀ j ∈ List.range' 1 (run_ops rnd ops).2.length, j % 2^32 = j := by
    intro j hj
    rw [List.mem_range'_1] at hj
    exact Nat.mod_eq_of_lt (by omega)
  rw [List.map_congr_left hmap, List.map_id']
  exact List.pairwise_lt_range' 1 _

set_option maxHeartbeats 1600000 in
/-- Witness for the amended C7: three consecutive creations receive the
strictly increasing ids 1, 2, 3. -/
theorem claim_C7_witness :
    ((run_ops (fun _ => 0)
      [MOp.create [2], MOp.create [3], MOp.create [5]]).2).Pairwise (· < ·) :=
  claim_C7_ids_monotone_below_wrap (fun _ => 0)
    [MOp.create [2], MOp.create [3], MOp.create [5]] (by decide)

theorem run_ops_append (rnd : Nat → Rat) (l1 l2 : List MOp) :
    run_ops rnd (l1 ++ l2) = l2.foldl (apply_op rnd) (run_ops rnd l1) := by
  simp [run_ops, List.foldl_append]

theorem create_churn_step (rnd : Nat → Rat) (sn : Nat) :
    membrane_create rnd ⟨[], [], sn⟩ [2] =
      (⟨[(sn,
          { id := sn, prime_factors := [2],
            data := init_data rnd (compute_tensor_size [2]), version := 1,
            parentId := none, childIds := [], max_children := 8,
            access_permissions := 4294967295, energy_level := 100, objects := [],
            max_objects := 16, operation_count := 0, access_count := 0 })],
        [sn], (sn + 1) % 2^32⟩, some sn) := by
  simp [membrane_create]

theorem destroy_singleton (fuel c : Nat) (hf : 2 ≤ fuel) (m : Membrane)
    (hc : m.childIds = []) (hp : m.parentId = none) (sn : Nat) :
    membrane_destroy_fuel fuel ⟨[(c, m)], [c], sn⟩ c = ⟨[], [], sn⟩ := by
  obtain ⟨f, rfl⟩ : ∃ f, fuel = f + 2 := ⟨fuel - 2, by omega⟩
  simp [membrane_destroy_fuel, destroy_children_loop, heap_lookup, heap_free,
    hc, hp, List.erase_cons_head]

theorem churn_state (n : Nat) :
    run_ops (fun _ => 0) (churn_ops n) =
      (⟨[], [], (1 + n) % 2^32⟩, (List.range' 1 n).map (· % 2^32)) := by
  induction n with
  | zero =>
    have h1 : churn_ops 0 = [] := rfl
    have h2 : (1:Nat) % 2^32 = 1 := by norm_num
    simp [run_ops, h1, init_sys, h2]
  | succ k ih =>
    have hsplit : churn_ops (k + 1) =
        churn_ops k ++ [MOp.create [2], MOp.destroy ((k + 1) % 2^32)] := by
      rw [churn_ops, churn_ops, List.range_succ, List.map_append,
        List.flatten_append]
      simp
    have hcomm : (k + 1) % 2^32 = (1 + k) % 2^32 := by
      rw [Nat.add_comm]
    rw [hsplit, run_ops_append, ih]
    simp only [List.foldl_cons, List.foldl_nil, apply_op]
    rw [create_churn_step]
    rw [hcomm, destroy_singleton 1000 ((1 + k) % 2^32) (by omega) _ rfl rfl]
    rw [Prod.ext_iff]
    constructor
    · rw [Sys.mk.injEq]
      refine ⟨rfl, rfl, ?_⟩
      omega
    · have hconcat : List.range' 1 (k + 1) =
          List.range' 1 k ++ [1 + 1 * k] := List.range'_concat 1 k
      rw [hconcat, List.map_append]
      simp

/-- Counterexample to C7 as stated: after 2^32 successful creations (the
churn trace creates one membrane per round and destroys it at once, so the
registry never fills), the `uint32_t` id counter has wrapped: the first
membrane created received id 1, the 2^32-th received id 0, so the sequence
of assigned ids is not strictly increasing — a later membrane's id is
smaller than an earlier one's. -/
theorem claim_C7_counterexample :
    (run_ops (fun _ => 0) (churn_ops (2^32))).2.length = 2^32 ∧
    ((run_ops (fun _ => 0) (churn_ops (2^32))).2).getD 0 0 = 1 ∧
    ((run_ops (fun _ => 0) (churn_ops (2^32))).2).getD (2^32 - 1) 0 = 0 ∧
    ¬ ((run_ops (fun _ => 0) (churn_ops (2^32))).2).Pairwise (· < ·) := by
  have hlog : (run_ops (fun _ => 0) (churn_ops (2^32))).2 =
      (List.range' 1 (2^32)).map (· % 2^32) := by
    rw [churn_state]
  have hlen : ((List.range' 1 (2^32)).map (· % 2^32)).length = 2^32 := by
    simp [List.length_range']
  have hel : ∀ (i : Nat) (hi : i < 2^32),
      ((List.range' 1 (2^32)).map (· % 2^32)).getD i 0 = (1 + i) % 2^32 := by
    intro i hi
    have hi2 : i < ((List.range' 1 (2^32)).map (· % 2^32)).length := by
      rw [hlen]
      exact hi
    rw [List.getD_eq_getElem?_getD, List.getElem?_eq_getElem hi2]
    simp [List.getElem_range']
  refine ⟨by rw [hlog, hlen], ?_, ?_, ?_⟩
  · rw [hlog, hel 0 (by norm_num)]
    norm_num
  · rw [hlog, hel (2^32 - 1) (by norm_num)]
    norm_num
  · rw [hlog]
    intro hpw
    rw [List.pairwise_iff_getElem] at hpw
    have h0 : (0:Nat) < ((List.range' 1 (2^32)).map (· % 2^32)).length := by
      rw [hlen]; norm_num
    have h1 : 2^32 - 1 < ((List.range' 1 (2^32)).map (· % 2^32)).length := by
      rw [hlen]; norm_num
    have hlt := hpw 0 (2^32 - 1) h0 h1 (by norm_num)
    have he0 : ((List.range' 1 (2^32)).map (· % 2^32))[0] = 1 := by
      simp [List.getElem_map, List.getElem_range']
    have he1 : ((List.range' 1 (2^32)).map (· % 2^32))[2^32 - 1] = 0 := by
      rw [List.getElem_map, List.getElem_range']
      norm_num
    rw [he0, he1] at hlt
    omega

end TensorMembrane
